import Mathlib

/-!
# Verification of the GPA calculator's aggregation engine and record store

Shallow embedding of the repository's core:
* `src/client/src/lib/gpa-calculator.ts` — the pure GPA aggregation engine
  (`calculateGradePoints`, `calculateCumulativeGPA`, `getLetterGrade`,
  `getGradeLetterFromValue`);
* the in-memory record store `MemStorage` (semesters and courses with
  identity assignment and cascade-on-delete);
* the DELETE `/api/semesters/:id` handler of `src/server/routes.ts`.

JavaScript numbers are modelled as rationals (`ℚ`).  A JavaScript
`Map<number, T>` whose keys are always the records' own `id` fields is
modelled as a `List T` in insertion order, keyed by the `id` projection:
`Map.set` replaces in place when the key is present and appends otherwise,
`Map.delete` removes the keyed entries and reports whether one existed,
`Map.values()` is the list itself.
-/

namespace GpaApp

/-- `users` table rows (src/shared/schema.ts). -/
structure User where
  id : Nat
  username : String
  password : String
deriving DecidableEq, Repr

/-- `semesters` table rows (src/shared/schema.ts): id, name, userId. -/
structure Semester where
  id : Nat
  name : String
  userId : Nat
deriving DecidableEq, Repr

/-- `courses` table rows (src/shared/schema.ts). -/
structure Course where
  id : Nat
  name : String
  creditHours : ℚ
  grade : String
  gradeValue : ℚ
  gradePoints : ℚ
  semesterId : Nat
  userId : Nat
deriving DecidableEq, Repr

/-- `InsertSemester`: the semester fields supplied by the caller (only `name`). -/
structure InsertSemester where
  name : String
deriving DecidableEq, Repr

/-- `InsertCourse`: the course fields supplied by the caller (everything but
`id`, `userId`, `semesterId`). -/
structure InsertCourse where
  name : String
  creditHours : ℚ
  grade : String
  gradeValue : ℚ
  gradePoints : ℚ
deriving DecidableEq, Repr

/-- `Map.set k v` on a list keyed by `key`: replace in place when the key is
present, append otherwise (JavaScript `Map` insertion-order semantics). -/
def mapSet (key : α → Nat) (l : List α) (k : Nat) (v : α) : List α :=
  if l.any (fun x => key x == k) then l.map (fun x => if key x = k then v else x)
  else l ++ [v]

/-- `Map.delete k` on a list keyed by `key`: drop the keyed entries and report
whether one existed. -/
def mapDelete (key : α → Nat) (l : List α) (k : Nat) : Bool × List α :=
  (l.any (fun x => key x == k), l.filter (fun x => key x != k))

/-- The state of `MemStorage` (src/unnamed/part_003): the two keyed
collections in insertion order, the `users` map, and the three id counters. -/
structure MemStorage where
  users : List User
  semesterData : List Semester
  courseData : List Course
  userCurrentId : Nat
  semesterCurrentId : Nat
  courseCurrentId : Nat
deriving DecidableEq, Repr

namespace MemStorage

/-- `getSemesters()`: all stored semesters in insertion order. -/
def getSemesters (s : MemStorage) : List Semester :=
  s.semesterData

/-- `getSemesterById(id)`: `Map.get` on the semester collection. -/
def getSemesterById (s : MemStorage) (id : Nat) : Option Semester :=
  s.semesterData.find? (fun x => x.id == id)

/-- `createSemester(insertSemester)`: assign the next semester id, store the
record with the placeholder `userId = 1`, return it. -/
def createSemester (s : MemStorage) (insertSemester : InsertSemester) :
    Semester × MemStorage :=
  let id := s.semesterCurrentId
  let semester : Semester := { id := id, name := insertSemester.name, userId := 1 }
  (semester,
    { s with
      semesterData := mapSet Semester.id s.semesterData id semester
      semesterCurrentId := id + 1 })

/-- `updateSemesterName(id, name)`: if the semester exists, overwrite its
`name` and re-store it under the same key; otherwise return `undefined`. -/
def updateSemesterName (s : MemStorage) (id : Nat) (name : String) :
    Option Semester × MemStorage :=
  match s.semesterData.find? (fun x => x.id == id) with
  | none => (none, s)
  | some semester =>
      let updatedSemester : Semester := { semester with name := name }
      (some updatedSemester,
        { s with semesterData := mapSet Semester.id s.semesterData id updatedSemester })

/-- `getCourses()`: all stored courses in insertion order. -/
def getCourses (s : MemStorage) : List Course :=
  s.courseData

/-- `getCoursesBySemesterId(semesterId)`: filter the courses by equality on
`semesterId`. -/
def getCoursesBySemesterId (s : MemStorage) (semesterId : Nat) : List Course :=
  s.courseData.filter (fun course => course.semesterId == semesterId)

/-- `getCourseById(id)`: `Map.get` on the course collection. -/
def getCourseById (s : MemStorage) (id : Nat) : Option Course :=
  s.courseData.find? (fun x => x.id == id)

/-- `deleteSemester(id)`: reassign every course of the semester to the default
semester (id 1) by re-`set`ting it, then delete the semester record, returning
whether it existed. -/
def deleteSemester (s : MemStorage) (id : Nat) : Bool × MemStorage :=
  let semesterCourses := s.getCoursesBySemesterId id
  let courseData :=
    semesterCourses.foldl
      (fun data course => mapSet Course.id data course.id { course with semesterId := 1 })
      s.courseData
  let (existed, semesterData) := mapDelete Semester.id s.semesterData id
  (existed, { s with courseData := courseData, semesterData := semesterData })

/-- `createCourse(insertCourse, semesterId = 1)`: assign the next course id,
attach the given (or default) `semesterId` and the placeholder `userId = 1`,
store, return the record. -/
def createCourse (s : MemStorage) (insertCourse : InsertCourse)
    (semesterId : Nat := 1) : Course × MemStorage :=
  let id := s.courseCurrentId
  let course : Course :=
    { id := id
      name := insertCourse.name
      creditHours := insertCourse.creditHours
      grade := insertCourse.grade
      gradeValue := insertCourse.gradeValue
      gradePoints := insertCourse.gradePoints
      semesterId := semesterId
      userId := 1 }
  (course,
    { s with
      courseData := mapSet Course.id s.courseData id course
      courseCurrentId := id + 1 })

/-- `deleteCourse(id)`: `Map.delete` on the course collection. -/
def deleteCourse (s : MemStorage) (id : Nat) : Bool × MemStorage :=
  let (existed, courseData) := mapDelete Course.id s.courseData id
  (existed, { s with courseData := courseData })

/-- `deleteAllCourses()`: clear the course collection and return `true`. -/
def deleteAllCourses (s : MemStorage) : Bool × MemStorage :=
  (true, { s with courseData := [] })

/-- The store as the constructor leaves it before creating the default
semester: empty collections, all counters at 1. -/
def empty : MemStorage :=
  { users := []
    semesterData := []
    courseData := []
    userCurrentId := 1
    semesterCurrentId := 1
    courseCurrentId := 1 }

/-- The initialized store: the constructor creates the default semester
`{name: "Unsorted"}`, which receives id 1. -/
def init : MemStorage :=
  (empty.createSemester { name := "Unsorted" }).2

end MemStorage

/-- The `gradeValues` constant of src/shared/schema.ts: the 12 canonical
letter labels with their numeric values, in declaration order. -/
def gradeValues : List (String × ℚ) :=
  [("A/A+", 4), ("A-", mkRat 37 10), ("B+", mkRat 33 10), ("B", 3),
   ("B-", mkRat 27 10), ("C+", mkRat 23 10), ("C", 2), ("C-", mkRat 17 10),
   ("D+", mkRat 13 10), ("D", 1), ("D-", mkRat 7 10), ("F", 0)]

/-- `CourseData` of gpa-calculator.ts: the client-side course shape with an
optional id. -/
structure CourseData where
  id : Option Nat := none
  name : String
  creditHours : ℚ
  grade : String
  gradeValue : ℚ
  gradePoints : ℚ
deriving DecidableEq, Repr

/-- The result shape of `calculateCumulativeGPA`. -/
structure AggregateResult where
  gpa : ℚ
  totalCreditHours : ℚ
  totalGradePoints : ℚ
deriving DecidableEq, Repr

/-- `calculateGradePoints(creditHours, gradeValue)`: their product, with no
validation. -/
def calculateGradePoints (creditHours gradeValue : ℚ) : ℚ :=
  creditHours * gradeValue

/-- `calculateCumulativeGPA(courses)`: the zero result on the empty list;
otherwise one pass accumulating `creditHours` and `gradePoints`, and
`gpa = totalGradePoints / totalCreditHours`. -/
def calculateCumulativeGPA (courses : List CourseData) : AggregateResult :=
  if courses.length = 0 then
    { gpa := 0, totalCreditHours := 0, totalGradePoints := 0 }
  else
    let totals :=
      courses.foldl
        (fun (acc : ℚ × ℚ) course =>
          (acc.1 + course.creditHours, acc.2 + course.gradePoints))
        (0, 0)
    { gpa := totals.2 / totals.1
      totalCreditHours := totals.1
      totalGradePoints := totals.2 }

/-- `getLetterGrade(gpaValue)`: descending threshold comparison over the 12
GradeScale break points. -/
def getLetterGrade (gpaValue : ℚ) : String :=
  if gpaValue ≥ 4 then "A/A+"
  else if gpaValue ≥ mkRat 37 10 then "A-"
  else if gpaValue ≥ mkRat 33 10 then "B+"
  else if gpaValue ≥ 3 then "B"
  else if gpaValue ≥ mkRat 27 10 then "B-"
  else if gpaValue ≥ mkRat 23 10 then "C+"
  else if gpaValue ≥ 2 then "C"
  else if gpaValue ≥ mkRat 17 10 then "C-"
  else if gpaValue ≥ mkRat 13 10 then "D+"
  else if gpaValue ≥ 1 then "D"
  else if gpaValue ≥ mkRat 7 10 then "D-"
  else "F"

/-- `getGradeLetterFromValue(gradeValue)`: first entry of `gradeValues` whose
value equals the input exactly, else the sentinel `"Unknown"`. -/
def getGradeLetterFromValue (gradeValue : ℚ) : String :=
  match gradeValues.find? (fun entry => entry.2 == gradeValue) with
  | some entry => entry.1
  | none => "Unknown"

/-- The response of a route handler: HTTP status and the `message` field. -/
structure ApiResponse where
  status : Nat
  message : String
deriving DecidableEq, Repr

/-- The DELETE `/api/semesters/:id` handler of src/server/routes.ts.  The
parsed id is `none` when `parseInt` produced `NaN`.  Id 1 is rejected with 400
before the store is touched; otherwise `deleteSemester` runs and a `false`
result is reported as 404. -/
def deleteSemesterRoute (s : MemStorage) (parsedId : Option Nat) :
    ApiResponse × MemStorage :=
  match parsedId with
  | none => ({ status := 400, message := "Invalid semester ID" }, s)
  | some id =>
      if id = 1 then
        ({ status := 400, message := "Cannot delete the default semester" }, s)
      else
        let (success, s') := s.deleteSemester id
        if success then
          ({ status := 200, message := "Semester deleted successfully" }, s')
        else
          ({ status := 404, message := "Semester not found" }, s')

/-- The course ids held in the store are pairwise distinct — the
representation invariant of a JavaScript `Map` keyed by course id. -/
def courseIdsNodup (s : MemStorage) : Prop :=
  (s.courseData.map Course.id).Nodup

/-- The semester ids held in the store are pairwise distinct — the
representation invariant of a JavaScript `Map` keyed by semester id. -/
def semesterIdsNodup (s : MemStorage) : Prop :=
  (s.semesterData.map Semester.id).Nodup

/-- Referential integrity: every stored course's `semesterId` is the id of a
stored semester. -/
def refIntegrity (s : MemStorage) : Prop :=
  ∀ c ∈ s.courseData, c.semesterId ∈ s.semesterData.map Semester.id

instance (s : MemStorage) : Decidable (courseIdsNodup s) := by
  unfold courseIdsNodup; infer_instance

instance (s : MemStorage) : Decidable (semesterIdsNodup s) := by
  unfold semesterIdsNodup; infer_instance

instance (s : MemStorage) : Decidable (refIntegrity s) := by
  unfold refIntegrity; infer_instance

/-- The store's public mutating operations, for stating reachability. -/
inductive StoreOp where
  | createSemester (insert : InsertSemester)
  | deleteSemester (id : Nat)
  | createCourse (insert : InsertCourse) (semesterId : Nat)
  | deleteCourse (id : Nat)
  | deleteAllCourses
deriving DecidableEq, Repr

/-- Apply one public mutating operation to the store. -/
def applyOp (s : MemStorage) : StoreOp → MemStorage
  | .createSemester insert => (s.createSemester insert).2
  | .deleteSemester id => (s.deleteSemester id).2
  | .createCourse insert semesterId => (s.createCourse insert semesterId).2
  | .deleteCourse id => (s.deleteCourse id).2
  | .deleteAllCourses => (s.deleteAllCourses).2

/-- Run a sequence of public mutating operations. -/
def runOps (s : MemStorage) (ops : List StoreOp) : MemStorage :=
  ops.foldl applyOp s

/-- An operation is well-behaved in a given state when it does not delete the
default semester and does not attach a course to an absent semester. -/
def goodOp (s : MemStorage) : StoreOp → Bool
  | .deleteSemester id => id != 1
  | .createCourse _ semesterId => (s.semesterData.map Semester.id).contains semesterId
  | _ => true

/-- Every operation of the trace is well-behaved in the state it runs in. -/
def goodTrace (s : MemStorage) : List StoreOp → Bool
  | [] => true
  | op :: rest => goodOp s op && goodTrace (applyOp s op) rest

/-- The inductive invariant of the store: referential integrity, presence of
the default semester, distinctness of course ids, and the course-id counter
strictly dominating every stored course id. -/
def storeInv (s : MemStorage) : Prop :=
  refIntegrity s ∧
  1 ∈ s.semesterData.map Semester.id ∧
  courseIdsNodup s ∧
  ∀ c ∈ s.courseData, c.id < s.courseCurrentId

instance (s : MemStorage) : Decidable (storeInv s) := by
  unfold storeInv; infer_instance

/-- A sample course-insertion payload for concrete scenarios. -/
def sampleInsert : InsertCourse :=
  { name := "Algebra", creditHours := 3, grade := "B", gradeValue := 3,
    gradePoints := 9 }

/-! ## Map-representation lemmas -/

theorem mapSet_of_mem {α : Type} {key : α → Nat} {l : List α} {k : Nat}
    (v : α) (h : k ∈ l.map key) :
    mapSet key l k v = l.map (fun x => if key x = k then v else x) := by
  rw [mapSet, if_pos]
  rw [List.any_eq_true]
  rcases List.mem_map.mp h with ⟨x, hx, hk⟩
  exact ⟨x, hx, by simpa using hk⟩

theorem mapSet_of_not_mem {α : Type} {key : α → Nat} {l : List α} {k : Nat}
    (v : α) (h : k ∉ l.map key) :
    mapSet key l k v = l ++ [v] := by
  rw [mapSet, if_neg]
  rw [List.any_eq_true]
  rintro ⟨x, hx, hk⟩
  exact h (List.mem_map.mpr ⟨x, hx, by simpa using hk⟩)

theorem mapSet_map_key {α : Type} {key : α → Nat} {l : List α} {k : Nat}
    {v : α} (hv : key v = k) (h : k ∈ l.map key) :
    (mapSet key l k v).map key = l.map key := by
  rw [mapSet_of_mem v h, List.map_map]
  apply List.map_congr_left
  intro x hx
  by_cases hxk : key x = k
  · simp [hxk, hv]
  · simp [hxk]

/-! ## The aggregation engine -/

theorem foldl_totals (l : List CourseData) (a b : ℚ) :
    l.foldl
      (fun (acc : ℚ × ℚ) course =>
        (acc.1 + course.creditHours, acc.2 + course.gradePoints))
      (a, b)
      = (a + (l.map CourseData.creditHours).sum,
         b + (l.map CourseData.gradePoints).sum) := by
  induction l generalizing a b with
  | nil => simp
  | cons c rest ih => simp [ih, add_assoc]

/-- C3: `calculateCumulativeGPA` returns the all-zero result on the empty
list, and on every non-empty list returns the sum of the `creditHours`
fields, the sum of the `gradePoints` fields, and their quotient as `gpa`. -/
theorem claim_C3 (courses : List CourseData) :
    calculateCumulativeGPA []
        = { gpa := 0, totalCreditHours := 0, totalGradePoints := 0 } ∧
    (courses ≠ [] →
      (calculateCumulativeGPA courses).totalCreditHours
          = (courses.map CourseData.creditHours).sum ∧
      (calculateCumulativeGPA courses).totalGradePoints
          = (courses.map CourseData.gradePoints).sum ∧
      (calculateCumulativeGPA courses).gpa
          = (calculateCumulativeGPA courses).totalGradePoints
            / (calculateCumulativeGPA courses).totalCreditHours) := by
  refine ⟨rfl, fun h => ?_⟩
  have hlen : ¬ courses.length = 0 := by simpa using h
  simp only [calculateCumulativeGPA, if_neg hlen, foldl_totals, zero_add]
  exact ⟨by trivial, by trivial, by trivial⟩

/-- Witness for C3 at a concrete one-course list. -/
theorem claim_C3_witness :
    ([({ name := "Math", creditHours := 3, grade := "A/A+", gradeValue := 4,
         gradePoints := 12 } : CourseData)] ≠ []) ∧
    ((calculateCumulativeGPA
        [{ name := "Math", creditHours := 3, grade := "A/A+", gradeValue := 4,
           gradePoints := 12 }]).totalCreditHours
        = ([({ name := "Math", creditHours := 3, grade := "A/A+",
               gradeValue := 4, gradePoints := 12 } : CourseData)].map
            CourseData.creditHours).sum ∧
      (calculateCumulativeGPA
        [{ name := "Math", creditHours := 3, grade := "A/A+", gradeValue := 4,
           gradePoints := 12 }]).totalGradePoints
        = ([({ name := "Math", creditHours := 3, grade := "A/A+",
               gradeValue := 4, gradePoints := 12 } : CourseData)].map
            CourseData.gradePoints).sum ∧
      (calculateCumulativeGPA
        [{ name := "Math", creditHours := 3, grade := "A/A+", gradeValue := 4,
           gradePoints := 12 }]).gpa
        = (calculateCumulativeGPA
            [{ name := "Math", creditHours := 3, grade := "A/A+",
               gradeValue := 4, gradePoints := 12 }]).totalGradePoints
          / (calculateCumulativeGPA
              [{ name := "Math", creditHours := 3, grade := "A/A+",
                 gradeValue := 4, gradePoints := 12 }]).totalCreditHours) :=
  ⟨by simp, (claim_C3 _).2 (by simp)⟩

/-- C2 fails as stated: the engine sums the stored `gradePoints` field, which
need not equal `creditHours * gradeValue`; on a course with `creditHours 1`,
`gradeValue 4`, `gradePoints 0` the GPA is `0`, not the credit-weighted mean
`4` of the `gradeValue` fields. -/
theorem claim_C2_cex :
    ¬ ((calculateCumulativeGPA
          [{ name := "X", creditHours := 1, grade := "A/A+", gradeValue := 4,
             gradePoints := 0 }]).gpa
        = (([({ name := "X", creditHours := 1, grade := "A/A+",
                gradeValue := 4, gradePoints := 0 } : CourseData)]).map
              (fun c => c.creditHours * c.gradeValue)).sum
          / (([({ name := "X", creditHours := 1, grade := "A/A+",
                  gradeValue := 4, gradePoints := 0 } : CourseData)]).map
                CourseData.creditHours).sum) := by
  simp only [calculateCumulativeGPA, List.length_cons, List.length_nil]
  norm_num

/-- C2 (amended): on every non-empty list of courses in which each course's
`gradePoints` field equals `creditHours * gradeValue`, the GPA is the
credit-weighted mean of the `gradeValue` fields, and the GPA of the empty
list is `0`. -/
theorem claim_C2 (courses : List CourseData)
    (hgp : ∀ c ∈ courses, c.gradePoints = c.creditHours * c.gradeValue) :
    (courses ≠ [] →
      (calculateCumulativeGPA courses).gpa
        = (courses.map (fun c => c.creditHours * c.gradeValue)).sum
          / (courses.map CourseData.creditHours).sum) ∧
    (calculateCumulativeGPA []).gpa = 0 := by
  refine ⟨fun h => ?_, rfl⟩
  have hlen : ¬ courses.length = 0 := by simpa using h
  have hsum : (courses.map CourseData.gradePoints).sum
      = (courses.map (fun c => c.creditHours * c.gradeValue)).sum := by
    congr 1
    exact List.map_congr_left hgp
  simp only [calculateCumulativeGPA, if_neg hlen, foldl_totals, zero_add, hsum]

/-- Witness for the amended C2 at a concrete one-course list. -/
theorem claim_C2_witness :
    (∀ c ∈ [({ name := "Math", creditHours := 3, grade := "A/A+",
               gradeValue := 4, gradePoints := 12 } : CourseData)],
        c.gradePoints = c.creditHours * c.gradeValue) ∧
    ([({ name := "Math", creditHours := 3, grade := "A/A+", gradeValue := 4,
         gradePoints := 12 } : CourseData)] ≠ []) ∧
    (calculateCumulativeGPA
        [{ name := "Math", creditHours := 3, grade := "A/A+", gradeValue := 4,
           gradePoints := 12 }]).gpa
      = ([({ name := "Math", creditHours := 3, grade := "A/A+",
             gradeValue := 4, gradePoints := 12 } : CourseData)].map
            (fun c => c.creditHours * c.gradeValue)).sum
        / ([({ name := "Math", creditHours := 3, grade := "A/A+",
               gradeValue := 4, gradePoints := 12 } : CourseData)].map
              CourseData.creditHours).sum :=
  ⟨by norm_num [List.forall_mem_singleton], by simp,
   (claim_C2
      [{ name := "Math", creditHours := 3, grade := "A/A+", gradeValue := 4,
         gradePoints := 12 }]
      (by norm_num [List.forall_mem_singleton])).1 (by simp)⟩

set_option maxHeartbeats 1600000 in
/-- C7: `getGradeLetterFromValue` is an exact-match reverse lookup into the
grade scale: on each of the 12 scale values it returns that value's letter
label, and on any value equal to no scale entry it returns `"Unknown"`; in
particular `3.0` gives `"B"` and `3.05` gives `"Unknown"`. -/
theorem claim_C7 :
    (∀ (letter : String) (q : ℚ), (letter, q) ∈ gradeValues →
        getGradeLetterFromValue q = letter) ∧
    (∀ q : ℚ, (∀ entry ∈ gradeValues, entry.2 ≠ q) →
        getGradeLetterFromValue q = "Unknown") ∧
    getGradeLetterFromValue 3 = "B" ∧
    getGradeLetterFromValue (mkRat 305 100) = "Unknown" := by
  refine ⟨?_, ?_, by decide, by decide⟩
  · have hall : ∀ p ∈ gradeValues, getGradeLetterFromValue p.2 = p.1 := by
      decide
    intro letter q h
    exact hall (letter, q) h
  · intro q hq
    have hfind : gradeValues.find? (fun entry => entry.2 == q) = none := by
      rw [List.find?_eq_none]
      intro x hx
      simpa using hq x hx
    simp [getGradeLetterFromValue, hfind]

/-- Witness for C7: the exact match at `3.0` and the sentinel at `3.5`. -/
theorem claim_C7_witness :
    ("B", (3 : ℚ)) ∈ gradeValues ∧ getGradeLetterFromValue 3 = "B" ∧
    (∀ entry ∈ gradeValues, entry.2 ≠ (mkRat 7 2)) ∧
    getGradeLetterFromValue (mkRat 7 2) = "Unknown" :=
  ⟨by decide, claim_C7.1 "B" 3 (by decide), by decide,
   claim_C7.2.1 (mkRat 7 2) (by decide)⟩

theorem notGe_of_lt_of_le {q a b : ℚ} (h : q < a) (hab : a ≤ b) :
    ¬ (q ≥ b) :=
  not_le.mpr (lt_of_lt_of_le h hab)

set_option maxHeartbeats 1600000 in
/-- C8: `getLetterGrade` classifies a GPA by descending threshold comparison:
on each of the 12 half-open threshold intervals it returns that interval's
label, and at the sample cutoffs `3.7` gives `"A-"` while `3.6999` gives
`"B+"`. -/
theorem claim_C8 (q : ℚ) :
    (4 ≤ q → getLetterGrade q = "A/A+") ∧
    (mkRat 37 10 ≤ q → q < 4 → getLetterGrade q = "A-") ∧
    (mkRat 33 10 ≤ q → q < mkRat 37 10 → getLetterGrade q = "B+") ∧
    (3 ≤ q → q < mkRat 33 10 → getLetterGrade q = "B") ∧
    (mkRat 27 10 ≤ q → q < 3 → getLetterGrade q = "B-") ∧
    (mkRat 23 10 ≤ q → q < mkRat 27 10 → getLetterGrade q = "C+") ∧
    (2 ≤ q → q < mkRat 23 10 → getLetterGrade q = "C") ∧
    (mkRat 17 10 ≤ q → q < 2 → getLetterGrade q = "C-") ∧
    (mkRat 13 10 ≤ q → q < mkRat 17 10 → getLetterGrade q = "D+") ∧
    (1 ≤ q → q < mkRat 13 10 → getLetterGrade q = "D") ∧
    (mkRat 7 10 ≤ q → q < 1 → getLetterGrade q = "D-") ∧
    (q < mkRat 7 10 → getLetterGrade q = "F") ∧
    getLetterGrade (mkRat 37 10) = "A-" ∧
    getLetterGrade (mkRat 36999 10000) = "B+" := by
  refine ⟨fun h1 => ?_, fun h1 h2 => ?_, fun h1 h2 => ?_, fun h1 h2 => ?_,
    fun h1 h2 => ?_, fun h1 h2 => ?_, fun h1 h2 => ?_, fun h1 h2 => ?_,
    fun h1 h2 => ?_, fun h1 h2 => ?_, fun h1 h2 => ?_, fun h2 => ?_,
    by decide, by decide⟩
  · simp only [getLetterGrade]
    rw [if_pos h1]
  · simp only [getLetterGrade]
    rw [if_neg (notGe_of_lt_of_le h2 (by decide)), if_pos h1]
  · simp only [getLetterGrade]
    rw [if_neg (notGe_of_lt_of_le h2 (by decide)),
      if_neg (notGe_of_lt_of_le h2 (by decide)), if_pos h1]
  · simp only [getLetterGrade]
    rw [if_neg (notGe_of_lt_of_le h2 (by decide)),
      if_neg (notGe_of_lt_of_le h2 (by decide)),
      if_neg (notGe_of_lt_of_le h2 (by decide)), if_pos h1]
  · simp only [getLetterGrade]
    rw [if_neg (notGe_of_lt_of_le h2 (by decide)),
      if_neg (notGe_of_lt_of_le h2 (by decide)),
      if_neg (notGe_of_lt_of_le h2 (by decide)),
      if_neg (notGe_of_lt_of_le h2 (by decide)), if_pos h1]
  · simp only [getLetterGrade]
    rw [if_neg (notGe_of_lt_of_le h2 (by decide)),
      if_neg (notGe_of_lt_of_le h2 (by decide)),
      if_neg (notGe_of_lt_of_le h2 (by decide)),
      if_neg (notGe_of_lt_of_le h2 (by decide)),
      if_neg (notGe_of_lt_of_le h2 (by decide)), if_pos h1]
  · simp only [getLetterGrade]
    rw [if_neg (notGe_of_lt_of_le h2 (by decide)),
      if_neg (notGe_of_lt_of_le h2 (by decide)),
      if_neg (notGe_of_lt_of_le h2 (by decide)),
      if_neg (notGe_of_lt_of_le h2 (by decide)),
      if_neg (notGe_of_lt_of_le h2 (by decide)),
      if_neg (notGe_of_lt_of_le h2 (by decide)), if_pos h1]
  · simp only [getLetterGrade]
    rw [if_neg (notGe_of_lt_of_le h2 (by decide)),
      if_neg (notGe_of_lt_of_le h2 (by decide)),
      if_neg (notGe_of_lt_of_le h2 (by decide)),
      if_neg (notGe_of_lt_of_le h2 (by decide)),
      if_neg (notGe_of_lt_of_le h2 (by decide)),
      if_neg (notGe_of_lt_of_le h2 (by decide)),
      if_neg (notGe_of_lt_of_le h2 (by decide)), if_pos h1]
  · simp only [getLetterGrade]
    rw [if_neg (notGe_of_lt_of_le h2 (by decide)),
      if_neg (notGe_of_lt_of_le h2 (by decide)),
      if_neg (notGe_of_lt_of_le h2 (by decide)),
      if_neg (notGe_of_lt_of_le h2 (by decide)),
      if_neg (notGe_of_lt_of_le h2 (by decide)),
      if_neg (notGe_of_lt_of_le h2 (by decide)),
      if_neg (notGe_of_lt_of_le h2 (by decide)),
      if_neg (notGe_of_lt_of_le h2 (by decide)), if_pos h1]
  · simp only [getLetterGrade]
    rw [if_neg (notGe_of_lt_of_le h2 (by decide)),
      if_neg (notGe_of_lt_of_le h2 (by decide)),
      if_neg (notGe_of_lt_of_le h2 (by decide)),
      if_neg (notGe_of_lt_of_le h2 (by decide)),
      if_neg (notGe_of_lt_of_le h2 (by decide)),
      if_neg (notGe_of_lt_of_le h2 (by decide)),
      if_neg (notGe_of_lt_of_le h2 (by decide)),
      if_neg (notGe_of_lt_of_le h2 (by decide)),
      if_neg (notGe_of_lt_of_le h2 (by decide)), if_pos h1]
  · simp only [getLetterGrade]
    rw [if_neg (notGe_of_lt_of_le h2 (by decide)),
      if_neg (notGe_of_lt_of_le h2 (by decide)),
      if_neg (notGe_of_lt_of_le h2 (by decide)),
      if_neg (notGe_of_lt_of_le h2 (by decide)),
      if_neg (notGe_of_lt_of_le h2 (by decide)),
      if_neg (notGe_of_lt_of_le h2 (by decide)),
      if_neg (notGe_of_lt_of_le h2 (by decide)),
      if_neg (notGe_of_lt_of_le h2 (by decide)),
      if_neg (notGe_of_lt_of_le h2 (by decide)),
      if_neg (notGe_of_lt_of_le h2 (by decide)), if_pos h1]
  · simp only [getLetterGrade]
    rw [if_neg (notGe_of_lt_of_le h2 (by decide)),
      if_neg (notGe_of_lt_of_le h2 (by decide)),
      if_neg (notGe_of_lt_of_le h2 (by decide)),
      if_neg (notGe_of_lt_of_le h2 (by decide)),
      if_neg (notGe_of_lt_of_le h2 (by decide)),
      if_neg (notGe_of_lt_of_le h2 (by decide)),
      if_neg (notGe_of_lt_of_le h2 (by decide)),
      if_neg (notGe_of_lt_of_le h2 (by decide)),
      if_neg (notGe_of_lt_of_le h2 (by decide)),
      if_neg (notGe_of_lt_of_le h2 (by decide)),
      if_neg (notGe_of_lt_of_le h2 (by decide))]

/-- Witness for C8 at the cutoff `3.7`. -/
theorem claim_C8_witness :
    mkRat 37 10 ≤ mkRat 37 10 ∧ mkRat 37 10 < (4 : ℚ) ∧
    getLetterGrade (mkRat 37 10) = "A-" :=
  ⟨by decide, by decide, (claim_C8 (mkRat 37 10)).2.1 (by decide) (by decide)⟩

/-! ## The record store -/

/-- C9: `deleteAllCourses` unconditionally returns `true`, empties the course
collection, and leaves the semester collection and both id counters
untouched, in every store state. -/
theorem claim_C9 (s : MemStorage) :
    (s.deleteAllCourses).1 = true ∧
    ((s.deleteAllCourses).2).getCourses = [] ∧
    ((s.deleteAllCourses).2).semesterData = s.semesterData ∧
    ((s.deleteAllCourses).2).semesterCurrentId = s.semesterCurrentId ∧
    ((s.deleteAllCourses).2).courseCurrentId = s.courseCurrentId :=
  ⟨rfl, rfl, rfl, rfl, rfl⟩

/-- C5: the DELETE `/api/semesters/:id` boundary rejects id 1 with status 400
and an unchanged store (so `deleteSemester` is never reached and semester 1
persists), while a direct `deleteSemester 1` on any store holding semester 1
returns `true` and removes the record. -/
theorem claim_C5 (s : MemStorage) (h : s.getSemesterById 1 ≠ none) :
    deleteSemesterRoute s (some 1)
        = ({ status := 400, message := "Cannot delete the default semester" },
           s) ∧
    (s.deleteSemester 1).1 = true ∧
    ((s.deleteSemester 1).2).getSemesterById 1 = none := by
  refine ⟨rfl, ?_, ?_⟩
  · have hex : ∃ x ∈ s.semesterData, (x.id == 1) = true := by
      have hs := Option.ne_none_iff_isSome.mp h
      rw [MemStorage.getSemesterById, List.find?_isSome] at hs
      exact hs
    show s.semesterData.any (fun x => x.id == 1) = true
    exact List.any_eq_true.mpr hex
  · show (s.semesterData.filter (fun x => x.id != 1)).find?
        (fun x => x.id == 1) = none
    rw [List.find?_eq_none]
    intro x hx
    have hne := (List.mem_filter.mp hx).2
    simpa using hne

/-- Witness for C5 on the freshly initialized store. -/
theorem claim_C5_witness :
    (MemStorage.init.getSemesterById 1 ≠ none) ∧
    (MemStorage.init.deleteSemester 1).1 = true ∧
    ((MemStorage.init.deleteSemester 1).2).getSemesterById 1 = none :=
  ⟨by decide, (claim_C5 MemStorage.init (by decide)).2.1,
   (claim_C5 MemStorage.init (by decide)).2.2⟩

/-- C6: course ids start at 1, each `createCourse` hands out the current
counter value and bumps it, `deleteCourse` never rewinds the counter, and in
the concrete scenario three creations yield ids 1, 2, 3, then after deleting
course 2 the next creation yields id 4 — deleted ids are not reused. -/
theorem claim_C6 :
    MemStorage.init.courseCurrentId = 1 ∧
    (∀ (s : MemStorage) (insert : InsertCourse) (semesterId : Nat),
        (s.createCourse insert semesterId).1.id = s.courseCurrentId ∧
        ((s.createCourse insert semesterId).2).courseCurrentId
          = s.courseCurrentId + 1) ∧
    (∀ (s : MemStorage) (id : Nat),
        ((s.deleteCourse id).2).courseCurrentId = s.courseCurrentId) ∧
    ((runOps MemStorage.init
        [.createCourse sampleInsert 1, .createCourse sampleInsert 1,
         .createCourse sampleInsert 1]).courseData.map Course.id
      = [1, 2, 3]) ∧
    ((runOps MemStorage.init
        [.createCourse sampleInsert 1, .createCourse sampleInsert 1,
         .createCourse sampleInsert 1, .deleteCourse 2,
         .createCourse sampleInsert 1]).courseData.map Course.id
      = [1, 3, 4]) := by
  refine ⟨rfl, fun s insert semesterId => ⟨rfl, rfl⟩, fun s id => rfl,
    by decide, by decide⟩

/-- C10: `updateSemesterName` on an existing semester replaces exactly that
semester's name (id and userId preserved, all other semesters, courses,
users, and counters untouched) and returns the updated record; on a missing
id it returns `undefined` and changes nothing. -/
theorem claim_C10 (s : MemStorage) (hnd : semesterIdsNodup s) (id : Nat)
    (name : String) :
    (∀ sem, s.getSemesterById id = some sem →
      (s.updateSemesterName id name).1 = some { sem with name := name } ∧
      ((s.updateSemesterName id name).2).semesterData
        = s.semesterData.map
            (fun x => if x.id = id then { x with name := name } else x) ∧
      ((s.updateSemesterName id name).2).courseData = s.courseData ∧
      ((s.updateSemesterName id name).2).users = s.users ∧
      ((s.updateSemesterName id name).2).semesterCurrentId
        = s.semesterCurrentId ∧
      ((s.updateSemesterName id name).2).courseCurrentId
        = s.courseCurrentId ∧
      ((s.updateSemesterName id name).2).userCurrentId = s.userCurrentId) ∧
    (s.getSemesterById id = none → s.updateSemesterName id name = (none, s)) := by
  constructor
  · intro sem hsem
    have hfind : s.semesterData.find? (fun x => x.id == id) = some sem := hsem
    have hmem : sem ∈ s.semesterData := List.mem_of_find?_eq_some hfind
    have hid : sem.id = id := by simpa using List.find?_some hfind
    have hup : s.updateSemesterName id name
        = (some { sem with name := name },
           { s with semesterData := mapSet Semester.id s.semesterData id { sem with name := name } }) := by
      unfold MemStorage.updateSemesterName
      rw [hfind]
    have hin : id ∈ s.semesterData.map Semester.id :=
      List.mem_map.mpr ⟨sem, hmem, hid⟩
    have hdata : mapSet Semester.id s.semesterData id { sem with name := name }
        = s.semesterData.map
            (fun x => if x.id = id then { x with name := name } else x) := by
      rw [mapSet_of_mem _ hin]
      apply List.map_congr_left
      intro x hx
      by_cases hxk : x.id = id
      · have hxs : x = sem :=
          List.inj_on_of_nodup_map hnd hx hmem (by rw [hxk, hid])
        simp only [if_pos hxk]
        rw [hxs]
      · simp only [if_neg hxk]
    rw [hup]
    exact ⟨rfl, hdata, rfl, rfl, rfl, rfl, rfl⟩
  · intro h
    have hfind : s.semesterData.find? (fun x => x.id == id) = none := h
    unfold MemStorage.updateSemesterName
    rw [hfind]

/-- Witness for C10 on the freshly initialized store. -/
theorem claim_C10_witness :
    semesterIdsNodup MemStorage.init ∧
    MemStorage.init.getSemesterById 1
      = some { id := 1, name := "Unsorted", userId := 1 } ∧
    (MemStorage.init.updateSemesterName 1 "Fall").1
      = some { id := 1, name := "Fall", userId := 1 } :=
  ⟨by decide, by decide,
   ((claim_C10 MemStorage.init (by decide) 1 "Fall").1
      { id := 1, name := "Unsorted", userId := 1 } (by decide)).1⟩

theorem foldl_reassign (todo : List Course) :
    ∀ acc : List Course,
      (∀ c ∈ todo, c.id ∈ acc.map Course.id) →
      (acc.map Course.id).Nodup →
      (todo.map Course.id).Nodup →
      todo.foldl
        (fun data course =>
          mapSet Course.id data course.id { course with semesterId := 1 })
        acc
      = acc.map (fun x =>
          match todo.find? (fun d => d.id == x.id) with
          | some d => { d with semesterId := 1 }
          | none => x) := by
  induction todo with
  | nil =>
    intro acc _ _ _
    simp
  | cons c rest ih =>
    intro acc hsub hacc htodo
    have hc : c.id ∈ acc.map Course.id := hsub c (List.mem_cons_self c rest)
    have hcnotin : c.id ∉ rest.map Course.id := (List.nodup_cons.mp htodo).1
    have hrest : (rest.map Course.id).Nodup := (List.nodup_cons.mp htodo).2
    rw [List.foldl_cons,
      mapSet_of_mem { c with semesterId := 1 } hc]
    have hids : (acc.map (fun x => if x.id = c.id then { c with semesterId := 1 } else x)).map Course.id
        = acc.map Course.id := by
      rw [List.map_map]
      apply List.map_congr_left
      intro x _
      by_cases hxk : x.id = c.id
      · simp [hxk]
      · simp [hxk]
    rw [ih _ (by rw [hids]; exact fun d hd => hsub d (List.mem_cons_of_mem c hd))
      (by rw [hids]; exact hacc) hrest]
    rw [List.map_map]
    apply List.map_congr_left
    intro x hx
    by_cases hxc : x.id = c.id
    · have h1 : (c :: rest).find? (fun d => d.id == x.id) = some c :=
        List.find?_cons_of_pos _ (by simpa using hxc.symm)
      have h2 : rest.find? (fun d => (d.id == ({ c with semesterId := 1 } : Course).id)) = none := by
        rw [List.find?_eq_none]
        intro d hd hdc
        exact hcnotin (List.mem_map.mpr ⟨d, hd, by simpa using hdc⟩)
      simp only [Function.comp, if_pos hxc, h1]
      rw [show (fun d => d.id == ({ c with semesterId := 1 } : Course).id)
          = (fun (d : Course) => d.id == c.id) from rfl] at h2
      simp [h2]
    · have h1 : (c :: rest).find? (fun d => d.id == x.id)
          = rest.find? (fun d => d.id == x.id) :=
        List.find?_cons_of_neg _ (by simpa using fun h => hxc h.symm)
      simp only [Function.comp, if_neg hxc, h1]

/-- The effect of `deleteSemester` on the course collection, given the map
representation invariant: every course of the deleted semester is reassigned
to semester 1 in place and every other course is untouched. -/
theorem deleteSemester_courseData (s : MemStorage) (hnd : courseIdsNodup s)
    (id : Nat) :
    ((s.deleteSemester id).2).courseData
      = s.courseData.map
          (fun c => if c.semesterId = id then { c with semesterId := 1 }
                    else c) := by
  have hstep : ((s.deleteSemester id).2).courseData
      = (s.courseData.filter (fun course => course.semesterId == id)).foldl
          (fun data course =>
            mapSet Course.id data course.id { course with semesterId := 1 })
          s.courseData := rfl
  have hsub : ∀ c ∈ s.courseData.filter (fun course => course.semesterId == id),
      c.id ∈ s.courseData.map Course.id :=
    fun c hc => List.mem_map.mpr ⟨c, (List.mem_filter.mp hc).1, rfl⟩
  have htodo : ((s.courseData.filter
        (fun course => course.semesterId == id)).map Course.id).Nodup :=
    List.Nodup.sublist
      (List.Sublist.map Course.id (List.filter_sublist s.courseData)) hnd
  rw [hstep, foldl_reassign _ _ hsub hnd htodo]
  apply List.map_congr_left
  intro x hx
  cases hfind : (s.courseData.filter
      (fun course => course.semesterId == id)).find?
      (fun d => d.id == x.id) with
  | none =>
    by_cases hxs : x.semesterId = id
    · exfalso
      have hxf : x ∈ s.courseData.filter (fun course => course.semesterId == id) :=
        List.mem_filter.mpr ⟨hx, by simpa using hxs⟩
      have := List.find?_eq_none.mp hfind x hxf
      simp at this
    · rw [if_neg hxs]
  | some d =>
    have hdid : d.id = x.id := by simpa using List.find?_some hfind
    have hdmem := List.mem_of_find?_eq_some hfind
    have hdc : d ∈ s.courseData := (List.mem_filter.mp hdmem).1
    have hds : d.semesterId = id := by
      simpa using (List.mem_filter.mp hdmem).2
    have hdx : d = x := List.inj_on_of_nodup_map hnd hdc hx hdid
    subst hdx
    rw [if_pos hds]

/-- C4: deleting a non-default semester present in the store reassigns every
course of that semester to semester 1, deletes no course (the id multiset is
unchanged), leaves `getCoursesBySemesterId` of the deleted id empty, and
makes `getCoursesBySemesterId 1` include every reassigned course. -/
theorem claim_C4 (s : MemStorage) (hnd : courseIdsNodup s) (sid : Nat)
    (hne : sid ≠ 1) (hex : s.getSemesterById sid ≠ none) :
    (∀ c ∈ s.courseData, c.semesterId = sid →
        { c with semesterId := 1 } ∈ ((s.deleteSemester sid).2).courseData) ∧
    ((s.deleteSemester sid).2).courseData.map Course.id
        = s.courseData.map Course.id ∧
    ((s.deleteSemester sid).2).getCoursesBySemesterId sid = [] ∧
    (∀ c ∈ s.courseData, c.semesterId = sid →
        { c with semesterId := 1 }
          ∈ ((s.deleteSemester sid).2).getCoursesBySemesterId 1) := by
  have hcd := deleteSemester_courseData s hnd sid
  have hmem : ∀ c ∈ s.courseData, c.semesterId = sid →
      { c with semesterId := 1 } ∈ ((s.deleteSemester sid).2).courseData := by
    intro c hc hcs
    rw [hcd]
    exact List.mem_map.mpr ⟨c, hc, by rw [if_pos hcs]⟩
  refine ⟨hmem, ?_, ?_, ?_⟩
  · rw [hcd, List.map_map]
    apply List.map_congr_left
    intro x _
    by_cases hxs : x.semesterId = sid
    · simp [hxs]
    · simp [hxs]
  · show ((s.deleteSemester sid).2).courseData.filter
        (fun course => course.semesterId == sid) = []
    rw [hcd, List.filter_eq_nil_iff]
    intro a ha
    rcases List.mem_map.mp ha with ⟨x, _, rfl⟩
    by_cases hxs : x.semesterId = sid
    · simp only [if_pos hxs]
      simpa using fun h => hne h.symm
    · simp only [if_neg hxs]
      simpa using hxs
  · intro c hc hcs
    show { c with semesterId := 1 }
        ∈ ((s.deleteSemester sid).2).courseData.filter
            (fun course => course.semesterId == 1)
    exact List.mem_filter.mpr ⟨hmem c hc hcs, by simp⟩

/-- Witness for C4: a store with a second semester holding one course. -/
theorem claim_C4_witness :
    courseIdsNodup (runOps MemStorage.init
      [.createSemester { name := "Fall" }, .createCourse sampleInsert 2]) ∧
    (2 : Nat) ≠ 1 ∧
    (runOps MemStorage.init
      [.createSemester { name := "Fall" },
       .createCourse sampleInsert 2]).getSemesterById 2 ≠ none ∧
    (((runOps MemStorage.init
        [.createSemester { name := "Fall" },
         .createCourse sampleInsert 2]).deleteSemester 2).2).getCoursesBySemesterId 2
      = [] :=
  ⟨by decide, by decide, by decide,
   (claim_C4 (runOps MemStorage.init
      [.createSemester { name := "Fall" }, .createCourse sampleInsert 2])
      (by decide) 2 (by decide) (by decide)).2.2.1⟩

theorem mapSet_key_superset {α : Type} {key : α → Nat} {l : List α} {k : Nat}
    (v : α) (hv : key v = k) {j : Nat} (hj : j ∈ l.map key) :
    j ∈ (mapSet key l k v).map key := by
  by_cases h : k ∈ l.map key
  · rw [mapSet_map_key hv h]
    exact hj
  · rw [mapSet_of_not_mem v h, List.map_append]
    exact List.mem_append_left _ hj

theorem storeInv_applyOp (s : MemStorage) (op : StoreOp)
    (hs : storeInv s) (hop : goodOp s op = true) :
    storeInv (applyOp s op) := by
  obtain ⟨hri, h1, hnd, hlt⟩ := hs
  cases op with
  | createSemester insert =>
    simp only [applyOp]
    refine ⟨?_, ?_, hnd, hlt⟩
    · intro c hc
      show c.semesterId ∈ List.map Semester.id
        (mapSet Semester.id s.semesterData s.semesterCurrentId
          (s.createSemester insert).1)
      exact mapSet_key_superset (s.createSemester insert).1 rfl (hri c hc)
    · show (1 : Nat) ∈ List.map Semester.id
        (mapSet Semester.id s.semesterData s.semesterCurrentId
          (s.createSemester insert).1)
      exact mapSet_key_superset (s.createSemester insert).1 rfl h1
  | deleteSemester id =>
    simp only [applyOp]
    have hid1 : id ≠ 1 := by simpa [goodOp] using hop
    have hcd := deleteSemester_courseData s hnd id
    have hsem : ((s.deleteSemester id).2).semesterData
        = s.semesterData.filter (fun x => x.id != id) := rfl
    have hsem1 : (1 : Nat)
        ∈ ((s.deleteSemester id).2).semesterData.map Semester.id := by
      rw [hsem]
      rcases List.mem_map.mp h1 with ⟨y, hy, hyid⟩
      refine List.mem_map.mpr ⟨y, List.mem_filter.mpr ⟨hy, ?_⟩, hyid⟩
      simp only [bne_iff_ne, ne_eq, hyid]
      exact fun h => hid1 h.symm
    refine ⟨?_, hsem1, ?_, ?_⟩
    · intro c hc
      rw [hcd] at hc
      rcases List.mem_map.mp hc with ⟨x, hxmem, rfl⟩
      by_cases hxs : x.semesterId = id
      · simpa [if_pos hxs] using hsem1
      · simp only [if_neg hxs]
        rw [hsem]
        rcases List.mem_map.mp (hri x hxmem) with ⟨y, hy, hyid⟩
        refine List.mem_map.mpr ⟨y, List.mem_filter.mpr ⟨hy, ?_⟩, hyid⟩
        simp only [bne_iff_ne, ne_eq, hyid]
        exact hxs
    · unfold courseIdsNodup
      rw [hcd, List.map_map]
      have hcomp : s.courseData.map
            (Course.id ∘ fun c =>
              if c.semesterId = id then { c with semesterId := 1 } else c)
          = s.courseData.map Course.id := by
        apply List.map_congr_left
        intro x _
        by_cases hxs : x.semesterId = id
        · simp [hxs]
        · simp [hxs]
      rw [hcomp]
      exact hnd
    · intro c hc
      rw [hcd] at hc
      rcases List.mem_map.mp hc with ⟨x, hxmem, rfl⟩
      have hx := hlt x hxmem
      by_cases hxs : x.semesterId = id
      · simpa [hxs] using hx
      · simpa [hxs] using hx
  | createCourse insert semesterId =>
    simp only [applyOp]
    have hsemmem : semesterId ∈ s.semesterData.map Semester.id := by
      simpa [goodOp] using hop
    have hknotin : s.courseCurrentId ∉ s.courseData.map Course.id := by
      intro hmem
      rcases List.mem_map.mp hmem with ⟨x, hxmem, hxid⟩
      exact absurd (hlt x hxmem) (by rw [hxid]; exact lt_irrefl _)
    have happ : ((s.createCourse insert semesterId).2).courseData
        = s.courseData ++ [(s.createCourse insert semesterId).1] :=
      mapSet_of_not_mem _ hknotin
    refine ⟨?_, h1, ?_, ?_⟩
    · intro c hc
      rw [happ] at hc
      rcases List.mem_append.mp hc with hold | hnew
      · exact hri c hold
      · rw [List.mem_singleton] at hnew
        subst hnew
        exact hsemmem
    · unfold courseIdsNodup
      rw [happ, List.map_append, List.nodup_append]
      refine ⟨hnd, by simp, ?_⟩
      intro a ha hb
      simp only [List.map_cons, List.map_nil, List.mem_singleton] at hb
      subst hb
      exact hknotin ha
    · intro c hc
      rw [happ] at hc
      rcases List.mem_append.mp hc with hold | hnew
      · exact Nat.lt_succ_of_lt (hlt c hold)
      · rw [List.mem_singleton] at hnew
        subst hnew
        exact Nat.lt_succ_self _
  | deleteCourse id =>
    simp only [applyOp]
    refine ⟨?_, h1, ?_, ?_⟩
    · intro c hc
      exact hri c (List.mem_filter.mp hc).1
    · exact List.Nodup.sublist
        (List.Sublist.map Course.id (List.filter_sublist _)) hnd
    · intro c hc
      exact hlt c (List.mem_filter.mp hc).1
  | deleteAllCourses =>
    simp only [applyOp]
    refine ⟨?_, h1, ?_, ?_⟩
    · intro c hc
      exact absurd hc (List.not_mem_nil c)
    · exact List.nodup_nil
    · intro c hc
      exact absurd hc (List.not_mem_nil c)

theorem storeInv_runOps (ops : List StoreOp) :
    ∀ s : MemStorage, storeInv s → goodTrace s ops = true →
      storeInv (runOps s ops) := by
  induction ops with
  | nil =>
    intro s hs _
    exact hs
  | cons op rest ih =>
    intro s hs h
    rw [goodTrace, Bool.and_eq_true] at h
    exact ih (applyOp s op) (storeInv_applyOp s op hs h.1) h.2

/-- C1 fails as stated: `createCourse` accepts any supplied `semesterId`
without checking that the semester exists, so one public operation on the
initialized store already breaks referential integrity. -/
theorem claim_C1_cex :
    ¬ refIntegrity
        (runOps MemStorage.init [StoreOp.createCourse sampleInsert 2]) := by
  decide

/-- C1 (amended): in every state reached from the initialized store by public
operations in which each `createCourse` supplies the id of a then-existing
semester and `deleteSemester` is never invoked on the default semester id 1,
every stored course's `semesterId` is the id of a stored semester; in
particular `deleteSemester` reassigns affected courses before removing the
record. -/
theorem claim_C1 (ops : List StoreOp)
    (h : goodTrace MemStorage.init ops = true) :
    refIntegrity (runOps MemStorage.init ops) :=
  (storeInv_runOps ops MemStorage.init (by decide) h).1

/-- Witness for the amended C1: create a semester, put a course in it, then
delete it; the course survives in semester 1 and integrity holds. -/
theorem claim_C1_witness :
    goodTrace MemStorage.init
      [StoreOp.createSemester { name := "Fall" },
       StoreOp.createCourse sampleInsert 2,
       StoreOp.deleteSemester 2] = true ∧
    refIntegrity (runOps MemStorage.init
      [StoreOp.createSemester { name := "Fall" },
       StoreOp.createCourse sampleInsert 2,
       StoreOp.deleteSemester 2]) :=
  ⟨by decide,
   claim_C1
     [StoreOp.createSemester { name := "Fall" },
      StoreOp.createCourse sampleInsert 2,
      StoreOp.deleteSemester 2] (by decide)⟩

end GpaApp
